import Mathlib

/-!
Shallow embedding of the reactive store library in this repository.

The repository ships two iterations of the same store concept:
* `src/src/FCStore/defineStore.ts` — the variant with getters, a global
  dependency graph (`globalPropertyToGetters`, `globalGetterToDependencies`),
  a global getter cache (`globalGetterCache`) and an active-getter stack
  (`globalActiveGetters`); modelled in namespace `DS`.
* `src/unnamed/part_001` — the variant without getters, with a per-store
  context `ctx` (`isUpdating`, `batchOldState`, `batchChanges`),
  `applyChanges` and `createActionWrapper`; modelled in namespace `FC`.

JS machine values are modelled by `Value`; `===` is structural equality on
`Value` (objects carry a reference id, so equality of `vobj` is reference
equality).  JS `Map`s and plain objects are modelled as association lists
(first-key-wins lookup, in-place update), JS `Set`s as insertion-ordered
duplicate-free lists.  Subscriber notifications and console warnings are
modelled as an event trace; the persistence write that follows a
notification is not claimed about and is abstracted away.
-/

/-- JS runtime values.  `vobj r` is a non-primitive (object/array) identified
by its reference `r`; `typeof (vobj r) = "object"` and `typeof vnull =
"object"` as in JS. -/
inductive Value where
  | undef : Value
  | vnull : Value
  | vbool : Bool → Value
  | vnum : Int → Value
  | vstr : String → Value
  | vobj : Nat → Value
deriving DecidableEq, Repr

/-- `typeof v === "object" && v !== null`: a genuine non-primitive value. -/
def isObjNonNull : Value → Bool
  | .vobj _ => true
  | _ => false

/-- JS truthiness of a value. -/
def truthy : Value → Bool
  | .undef => false
  | .vnull => false
  | .vbool b => b
  | .vnum n => n != 0
  | .vstr s => s ≠ ""
  | .vobj _ => true

section AList

variable {α : Type} {β : Type} [DecidableEq α]

/-- First-match lookup in an association list (JS `Map.get` / property read). -/
def look : List (α × β) → α → Option β
  | [], _ => none
  | p :: l, k => if p.1 = k then some p.2 else look l k

/-- JS `Map.set` / property write: replace the first binding of `k`, or append
a new binding at the end (JS maps and objects keep insertion order). -/
def aset : List (α × β) → α → β → List (α × β)
  | [], k, v => [(k, v)]
  | p :: l, k, v => if p.1 = k then (k, v) :: l else p :: aset l k v

/-- JS `Map.delete`: drop the binding of `k` (association lists built with
`aset` never contain duplicate keys, so filtering equals deleting). -/
def aerase (l : List (α × β)) (k : α) : List (α × β) :=
  l.filter (fun p => decide (p.1 ≠ k))

/-- JS `Set.add`: append if not already present. -/
def insertU (l : List α) (a : α) : List α :=
  if a ∈ l then l else l ++ [a]

end AList

/-- The value of the last binding of `k` supplied by a partial-state record
(later entries of a JS object literal / later assignments win). -/
def lastVal : List (String × Value) → String → Option Value
  | [], _ => none
  | kv :: ps, k =>
      match lastVal ps k with
      | some v => some v
      | none => if kv.1 = k then some kv.2 else none

/-- The per-store subscriber collection is a JS `Set` of listener functions
(defineStore.ts line 236, part_001 line 216); listeners are identified by
reference, modelled as `Nat` ids, and a `Set` is an insertion-ordered
duplicate-free list.  `$subscribe` adds the listener (a `Set.add` of a present
element is a no-op; part_001 first warns on a duplicate but still calls
`add`). -/
def subAdd (l : List Nat) (f : Nat) : List Nat := insertU l f

/-- The unsubscribe handle returned by `$subscribe`:
`() => subscribers.delete(listener)` — `Set.delete` of the listener. -/
def subRemove (l : List Nat) (f : Nat) : List Nat :=
  l.filter (fun g => decide (g ≠ f))

/-- `subscribers.forEach((listener) => listener(...))`: the sequence of
listener invocations performed by one notification. -/
def notifyRun (l : List Nat) : List Nat := l

namespace DS

/-!
Model of `src/src/FCStore/defineStore.ts`.

A key `(storeId, name)` models the source's string keys
`` `${id}/${String(prop)}` ``.  `ASys` collects the module-level reactive
registries (they are process-wide and shared across stores), every store's
state object (`fields`), and the per-store closure variables `isUpdating`
(`updating`) and `currentChanges` (`curCh`).  The observable effects of
`notifySubscribers` and of `console.warn` in the set trap are recorded in
`trace`.
-/

/-- A `(storeId, propertyOrGetterName)` pair. -/
abbrev SKey := String × String

/-- Observable events of the defineStore.ts variant: a subscriber
notification `notifySubscribers(changes)` for a store, or the set trap's
warning for a write to a non-state property. -/
inductive AEvent where
  | notify : String → List (String × Value) → AEvent
  | warnSet : String → String → AEvent
deriving DecidableEq, Repr

/-- Global reactive system of defineStore.ts: the four module-level maps
(`globalGetterCache`, `globalPropertyToGetters`, `globalGetterToDependencies`,
`globalActiveGetters`), all stores' state objects, and each store's
`isUpdating` flag and `currentChanges` accumulator. -/
structure ASys where
  fields : List (SKey × Value)
  getterCache : List (SKey × Value)
  propToGetters : List (SKey × List SKey)
  getterToDeps : List (SKey × List SKey)
  activeGetters : List SKey
  updating : List (String × Bool)
  curCh : List (String × List (String × Value))
  trace : List AEvent
deriving DecidableEq, Repr

/-- `globalPropertyToGetters.get(propKey)`, defaulting to the empty set. -/
def dependentsOf (s : ASys) (pk : SKey) : List SKey :=
  (look s.propToGetters pk).getD []

/-- `globalGetterToDependencies.get(getterKey)`, defaulting to the empty set. -/
def depsOf (s : ASys) (g : SKey) : List SKey :=
  (look s.getterToDeps g).getD []

/-- A store's `isUpdating` flag (`false` for stores not otherwise recorded). -/
def updOf (s : ASys) (sid : String) : Bool :=
  (look s.updating sid).getD false

/-- A store's `currentChanges` accumulator. -/
def curOf (s : ASys) (sid : String) : List (String × Value) :=
  (look s.curCh sid).getD []

/-- `(currentChanges as any)[key] = v` for a store. -/
def recordChange (sid : String) (k : String) (v : Value) (s : ASys) : ASys :=
  { s with curCh := aset s.curCh sid (aset (curOf s sid) k v) }

/-- `notifySubscribers(currentChanges); currentChanges = {}` — emit a
notification unless the changes object is empty, then clear it
(defineStore.ts lines 286-290, 339-340, 408-409, 485-486). -/
def emitChanges (sid : String) (s : ASys) : ASys :=
  let ch := curOf s sid
  let s1 := if ch.isEmpty then s else { s with trace := s.trace ++ [.notify sid ch] }
  { s1 with curCh := aset s1.curCh sid [] }

/-- The dependency-collection step of `depTrackingProxy.get`
(defineStore.ts lines 244-262): if the active-getter stack is non-empty,
add every active getter to the property's dependent set and add the
property to the innermost active getter's dependency set. -/
def recordRead (pk : SKey) (s : ASys) : ASys :=
  if s.activeGetters.isEmpty then s
  else
    let deps := s.activeGetters.foldl insertU (dependentsOf s pk)
    let s1 := { s with propToGetters := aset s.propToGetters pk deps }
    match s1.activeGetters.getLast? with
    | none => s1
    | some top =>
        { s1 with getterToDeps := aset s1.getterToDeps top (insertU (depsOf s1 top) pk) }

/-- Reading a state field through the store proxy: dependency collection then
`Reflect.get(target, prop)` (missing properties read as `undefined`). -/
def fieldRead (pk : SKey) (s : ASys) : Value × ASys :=
  let s1 := recordRead pk s
  ((look s1.fields pk).getD .undef, s1)

/-- Cache invalidation performed by the set trap on an effective change
(defineStore.ts lines 386-394): delete every getter in
`globalPropertyToGetters.get(propKey)` from `globalGetterCache`. -/
def invalidateGetters (pk : SKey) (s : ASys) : ASys :=
  { s with getterCache := (dependentsOf s pk).foldl (fun c g => aerase c g) s.getterCache }

/-- The `storeProxy` set trap (defineStore.ts lines 373-413).  Returns the
trap's boolean result together with the updated system.  An unknown property
warns and performs no mutation; a known field is written, and if the new
value differs (`prev !== value`) the dependent getters' cache entries are
evicted, the change is recorded, and — outside a batch update — the
subscribers are notified. -/
def storeSet (pk : SKey) (v : Value) (s : ASys) : Bool × ASys :=
  match look s.fields pk with
  | none => (false, { s with trace := s.trace ++ [.warnSet pk.1 pk.2] })
  | some prev =>
      let s1 := { s with fields := aset s.fields pk v }
      if prev = v then (true, s1)
      else
        let s2 := recordChange pk.1 pk.2 prev (invalidateGetters pk s1)
        if updOf s2 pk.1 then (true, s2)
        else (true, emitChanges pk.1 s2)

/-- `$patch(partialState)` (defineStore.ts lines 317-342): record the old
value of every supplied key into `currentChanges` (no equality check and no
getter-cache invalidation), `Object.assign` the new values, reset
`isUpdating` (the transient `isUpdating = true` around the assignment has no
other observable effect and is elided), then notify and clear. -/
def patchA (sid : String) (ps : List (String × Value)) (s : ASys) : ASys :=
  let s1 := ps.foldl
    (fun t kv => recordChange sid kv.1 ((look t.fields (sid, kv.1)).getD .undef) t) s
  let s2 := ps.foldl (fun t kv => { t with fields := aset t.fields (sid, kv.1) kv.2 }) s1
  emitChanges sid { s2 with updating := aset s2.updating sid false }

/-- One step of the cache-hit dependency propagation loop (defineStore.ts
lines 432-439): route a recorded dependency `d` of the cached getter to the
outer getter, in both directions of the graph. -/
def propagateDep (outer : SKey) (t : ASys) (d : SKey) : ASys :=
  let t1 := { t with propToGetters := aset t.propToGetters d (insertU (dependentsOf t d) outer) }
  { t1 with getterToDeps := aset t1.getterToDeps outer (insertU (depsOf t1 outer) d) }

/-- Cache-hit dependency propagation (defineStore.ts lines 428-441): when a
cached getter is read while another getter is being computed, transfer its
recorded dependencies to the innermost active (outer) getter. -/
def hitPropagate (k : SKey) (s : ASys) : ASys :=
  if s.activeGetters.isEmpty then s
  else
    match look s.getterToDeps k, s.activeGetters.getLast? with
    | some deps, some outer => deps.foldl (propagateDep outer) s
    | _, _ => s

/-- Getter bodies as a small expression language: a getter may return a
constant, read a state field (of any store), read another getter (of any
store), or branch on a read value — exactly the shapes the claims exercise. -/
inductive GExpr where
  | lit : Value → GExpr
  | readField : SKey → GExpr
  | readGetter : SKey → GExpr
  | gif : GExpr → GExpr → GExpr → GExpr
deriving DecidableEq, Repr

/-- The getter definitions of all stores. -/
def GEnv := SKey → Option GExpr

/-- Evaluation of getter expressions, mirroring the getter property defined in
defineStore.ts lines 420-458: a cached getter returns its cached value after
cache-hit propagation; otherwise the getter key is pushed on
`globalActiveGetters`, its old dependency set is deleted, the body is
evaluated against the tracking proxy, the stack is popped and the result is
cached.  `fuel` bounds the evaluation depth (the source would loop forever on
the runs a zero-fuel result cuts off). -/
def evalE (env : GEnv) : Nat → GExpr → ASys → Option (Value × ASys)
  | 0, _, _ => none
  | _ + 1, .lit v, s => some (v, s)
  | _ + 1, .readField k, s => some (fieldRead k s)
  | f + 1, .gif c t e, s =>
      match evalE env f c s with
      | none => none
      | some (cv, s1) => if truthy cv then evalE env f t s1 else evalE env f e s1
  | f + 1, .readGetter k, s =>
      match look s.getterCache k with
      | some v => some (v, hitPropagate k s)
      | none =>
          match env k with
          | none => none
          | some body =>
              let s1 := { s with activeGetters := s.activeGetters ++ [k],
                                 getterToDeps := aerase s.getterToDeps k }
              match evalE env f body s1 with
              | none => none
              | some (v, s2) =>
                  some (v, { s2 with activeGetters := s2.activeGetters.dropLast,
                                     getterCache := aset s2.getterCache k v })

/-- Action bodies as command sequences: a direct field write `this.prop = v`,
a `this.$patch(...)` call, a nested call of a sibling action, or a thrown
exception.  An action is synchronous, or asynchronous with the commands
before and after its awaited suspension point. -/
inductive Cmd where
  | setF : String → Value → Cmd
  | patchC : List (String × Value) → Cmd
  | callA : String → Cmd
  | throwE : Cmd
deriving DecidableEq, Repr

/-- An action definition: synchronous body, or asynchronous body split at the
await point. -/
inductive ActDef where
  | sync : List Cmd → ActDef
  | async : List Cmd → List Cmd → ActDef
deriving DecidableEq, Repr

/-- The action definitions of a store. -/
def AEnv := String → Option ActDef

/-- Commands that only write own-store fields directly or throw (no `$patch`,
no nested action call). -/
def SimpleCmd : Cmd → Bool
  | .setF _ _ => true
  | .throwE => true
  | _ => false

end DS

/-- Run a command sequence, stopping at the first thrown exception (the
boolean result is the "an exception escaped" flag). -/
def execList {σ : Type} (step : DS.Cmd → σ → σ × Bool) : List DS.Cmd → σ → σ × Bool
  | [], s => (s, false)
  | c :: cs, s =>
      let r := step c s
      if r.2 then (r.1, true) else execList step cs r.1

namespace DS

/-- The action wrapper's internal `notify` (defineStore.ts lines 475-487):
reset `isUpdating`, notify subscribers with the accumulated `currentChanges`
(skipped when empty) and clear the accumulator. -/
def notifyA (sid : String) (s : ASys) : ASys :=
  emitChanges sid { s with updating := aset s.updating sid false }

/-- The action wrapper of defineStore.ts (lines 462-505), parameterised by the
command interpreter `step`.  It unconditionally sets `isUpdating`, runs the
body, and — because a synchronous result is not a `Promise` — calls `notify`
in the `finally` block even when the body throws.  For an asynchronous
action, `notify` runs only when the promise settles (`result.finally(notify)`),
also on rejection; an exception thrown before the suspension point leaves a
non-`Promise` result, so the `finally` block notifies immediately. -/
def runACore (env : AEnv) (sid : String) (step : Cmd → ASys → ASys × Bool)
    (name : String) (s : ASys) : ASys × Bool :=
  match env name with
  | none => (s, true)
  | some (.sync body) =>
      let s0 := { s with updating := aset s.updating sid true }
      let r := execList step body s0
      (notifyA sid r.1, r.2)
  | some (.async before after) =>
      let s0 := { s with updating := aset s.updating sid true }
      let r1 := execList step before s0
      if r1.2 then (notifyA sid r1.1, true)
      else
        let r2 := execList step after r1.1
        (notifyA sid r2.1, r2.2)

/-- Interpret one command against the defineStore.ts store (the write goes
through the set trap, the patch through `$patch`, a nested call through the
action wrapper at smaller fuel). -/
def execA (env : AEnv) (sid : String) : Nat → Cmd → ASys → ASys × Bool
  | 0, c, s =>
      match c with
      | .setF p v => ((storeSet (sid, p) v s).2, false)
      | .patchC ps => (patchA sid ps s, false)
      | .callA _ => (s, true)
      | .throwE => (s, true)
  | f + 1, c, s =>
      match c with
      | .setF p v => ((storeSet (sid, p) v s).2, false)
      | .patchC ps => (patchA sid ps s, false)
      | .callA n => runACore env sid (execA env sid f) n s
      | .throwE => (s, true)

/-- Invoke an action of a defineStore.ts store by name. -/
def runActionA (env : AEnv) (sid : String) (fuel : Nat) (name : String)
    (s : ASys) : ASys × Bool :=
  runACore env sid (execA env sid fuel) name s

/-- Number of subscriber notifications in a trace. -/
def countNotifyA (tr : List AEvent) : Nat :=
  (tr.filter fun e => match e with | .notify _ _ => true | _ => false).length

end DS

namespace FC

/-!
Model of `src/unnamed/part_001`.

This variant has no getters; `ctx` bundles the single store's state, the
update lock and the batch accumulators.  The store object's own properties
(`$id`, `$patch`, the actions, …) are writable through the proxy (used by
HMR); `ownProps` lists their names and `ownVals` carries the values written
to them.  Notifications `(state, prevState, changes)` and the set trap's
warning are recorded in `trace` (the notification event stores `prevState`
and `changes`; the current state is the model's `state` field at emission
time).
-/

/-- Observable events of the part_001 variant. -/
inductive BEvent where
  | notify : List (String × Value) → List (String × Value) → BEvent
  | warnSet : String → BEvent
deriving DecidableEq, Repr

/-- The store context `ctx` of part_001 (lines 214-221) plus the store
object's writable own properties and the event trace. -/
structure BSys where
  state : List (String × Value)
  ownProps : List String
  ownVals : List (String × Value)
  isUpdating : Bool
  batchOld : List (String × Value)
  batchCh : List (String × Value)
  trace : List BEvent
deriving DecidableEq, Repr

/-- `ctx.notify(prevState, changes)` (part_001 lines 246-257), with the
persistence write abstracted away. -/
def notifyFC (prev changes : List (String × Value)) (s : BSys) : BSys :=
  { s with trace := s.trace ++ [.notify prev changes] }

/-- The loop body of `applyChanges` (part_001 lines 98-107), acting on the
accumulator `(state, hasChanges, effectiveChanges)`: the entry is skipped iff
the old value is strictly equal to the new one and the new one is not a
non-null object (`oldValue === value && (typeof value !== "object" || value
=== null)`). -/
def applyStep (acc : List (String × Value) × Bool × List (String × Value))
    (kv : String × Value) : List (String × Value) × Bool × List (String × Value) :=
  let old := (look acc.1 kv.1).getD .undef
  if old = kv.2 ∧ isObjNonNull kv.2 = false then acc
  else (aset acc.1 kv.1 kv.2, true, aset acc.2.2 kv.1 kv.2)

/-- `applyChanges(state, partial)` (part_001 lines 94-110): fold the supplied
entries over the state; returns the new state, the has-changes flag and the
effective-change record. -/
def applyChanges (st : List (String × Value)) (ps : List (String × Value)) :
    List (String × Value) × Bool × List (String × Value) :=
  ps.foldl applyStep (st, false, [])

/-- `$patch(partial)` (part_001 lines 265-278): snapshot, apply, and either
accumulate into the open transaction or notify immediately; a patch with no
effective change does neither. -/
def patchFC (ps : List (String × Value)) (s : BSys) : BSys :=
  let oldState := s.state
  let r := applyChanges s.state ps
  let s1 := { s with state := r.1 }
  if r.2.1 = false then s1
  else if s1.isUpdating then
    { s1 with batchCh := r.2.2.foldl (fun b kv => aset b kv.1 kv.2) s1.batchCh }
  else notifyFC oldState r.2.2 s1

/-- The part_001 set trap (lines 320-345): a store-own property is written
directly on the store object (HMR support); an unknown property warns and is
rejected; a state property is updated when changed (objects always count as
changed), accumulating inside a transaction and notifying immediately
outside one. -/
def setFC (p : String) (v : Value) (s : BSys) : BSys × Bool :=
  if p ∈ s.ownProps then ({ s with ownVals := aset s.ownVals p v }, true)
  else if (look s.state p).isNone then
    ({ s with trace := s.trace ++ [.warnSet p] }, false)
  else
    let old := (look s.state p).getD .undef
    if old ≠ v ∨ isObjNonNull v = true then
      if s.isUpdating then
        ({ s with batchCh := aset s.batchCh p v, state := aset s.state p v }, true)
      else
        (notifyFC s.state [(p, v)] { s with state := aset s.state p v }, true)
    else (s, true)

/-- Transaction opening of `createActionWrapper` (part_001 lines 122-127):
returns the state together with `previousIsUpdating`. -/
def openTx (s : BSys) : BSys × Bool :=
  if s.isUpdating then (s, true)
  else ({ s with isUpdating := true, batchOld := s.state, batchCh := [] }, false)

/-- The `commit` closure of `createActionWrapper` (part_001 lines 131-140):
only the outermost call closes the transaction and emits the single merged
notification (none if no change accumulated). -/
def commitFC (prev : Bool) (s : BSys) : BSys :=
  if prev then s
  else
    let s1 := { s with isUpdating := false }
    if s1.batchCh.isEmpty then s1
    else { (notifyFC s1.batchOld s1.batchCh s1) with batchCh := [] }

/-- `createActionWrapper` (part_001 lines 120-156), parameterised by the
command interpreter: open (or join) the transaction, run the body; on a
synchronous exception release the lock if this call opened it and rethrow
without committing; on normal synchronous completion commit; for an
asynchronous body the commit is attached with `.finally`, so it runs at
settlement whether the promise resolves or rejects. -/
def runBCore (env : DS.AEnv) (step : DS.Cmd → BSys → BSys × Bool)
    (name : String) (s : BSys) : BSys × Bool :=
  match env name with
  | none => (s, true)
  | some (.sync body) =>
      let r0 := openTx s
      let r := execList step body r0.1
      if r.2 then ({ r.1 with isUpdating := if r0.2 then r.1.isUpdating else false }, true)
      else (commitFC r0.2 r.1, false)
  | some (.async before after) =>
      let r0 := openTx s
      let r1 := execList step before r0.1
      if r1.2 then ({ r1.1 with isUpdating := if r0.2 then r1.1.isUpdating else false }, true)
      else
        let r2 := execList step after r1.1
        (commitFC r0.2 r2.1, r2.2)

/-- Interpret one command against the part_001 store. -/
def execFC (env : DS.AEnv) : Nat → DS.Cmd → BSys → BSys × Bool
  | 0, c, s =>
      match c with
      | .setF p v => ((setFC p v s).1, false)
      | .patchC ps => (patchFC ps s, false)
      | .callA _ => (s, true)
      | .throwE => (s, true)
  | f + 1, c, s =>
      match c with
      | .setF p v => ((setFC p v s).1, false)
      | .patchC ps => (patchFC ps s, false)
      | .callA n => runBCore env (execFC env f) n s
      | .throwE => (s, true)

/-- Invoke an action of a part_001 store by name. -/
def runActionFC (env : DS.AEnv) (fuel : Nat) (name : String) (s : BSys) :
    BSys × Bool :=
  runBCore env (execFC env fuel) name s

/-- Number of subscriber notifications in a trace. -/
def countNotifyB (tr : List BEvent) : Nat :=
  (tr.filter fun e => match e with | .notify _ _ => true | _ => false).length

end FC

/-!  Concrete systems and programs used by counterexamples and witnesses. -/

/-- A concrete reactive system: store `a` has field `x`; getters `a/g` and
`b/h` are cached and recorded as dependents of `a/x`; getter `a/u` is cached
but independent; `b/h` is on the active stack. -/
def c1Sys : DS.ASys :=
  { fields := [(("a", "x"), .vnum 0)]
  , getterCache := [(("a", "g"), .vnum 0), (("b", "h"), .vnum 0), (("a", "u"), .vnum 7)]
  , propToGetters := [(("a", "x"), [("a", "g"), ("b", "h")])]
  , getterToDeps := []
  , activeGetters := [("b", "h")]
  , updating := []
  , curCh := []
  , trace := [] }

/-- Store `s` with a single getter `g` that reads field `x`. -/
def c2Env : DS.GEnv := fun k =>
  if k = ("s", "g") then some (.readField ("s", "x")) else none

/-- Initial system for the `c2Env` store: field `x` holds an object. -/
def c2S0 : DS.ASys :=
  { fields := [(("s", "x"), .vobj 0)], getterCache := [], propToGetters := []
  , getterToDeps := [], activeGetters := [], updating := [], curCh := [], trace := [] }

/-- The system after getter `g` has been read once (its value is cached and
`x` is recorded as its dependency). -/
def c2S1 : DS.ASys :=
  ((DS.evalE c2Env 5 (.readGetter ("s", "g")) c2S0).getD (.undef, c2S0)).2

/-- Store `s` with a getter `g` whose computation path depends on the `sw`
field: it reads `f1` when `sw` is truthy and `f2` otherwise. -/
def c3Env : DS.GEnv := fun k =>
  if k = ("s", "g") then
    some (.gif (.readField ("s", "sw")) (.readField ("s", "f1")) (.readField ("s", "f2")))
  else none

/-- Initial system for the `c3Env` store. -/
def c3S0 : DS.ASys :=
  { fields := [(("s", "sw"), .vbool true), (("s", "f1"), .vnum 1), (("s", "f2"), .vnum 2)]
  , getterCache := [], propToGetters := [], getterToDeps := [], activeGetters := []
  , updating := [], curCh := [], trace := [] }

/-- After the first read of `g` (computed on the `sw`-true path, reading
`f1`). -/
def c3S1 : DS.ASys :=
  ((DS.evalE c3Env 9 (.readGetter ("s", "g")) c3S0).getD (.undef, c3S0)).2

/-- After writing `sw := false` (evicts `g`). -/
def c3S2 : DS.ASys := (DS.storeSet ("s", "sw") (.vbool false) c3S1).2

/-- After the second read of `g` (recomputed on the `sw`-false path, reading
`f2` and no longer `f1`). -/
def c3S3 : DS.ASys :=
  ((DS.evalE c3Env 9 (.readGetter ("s", "g")) c3S2).getD (.undef, c3S2)).2

/-- A store `s` whose field `x` is `1`, with a cached getter `g` recorded (in
both directions) as depending on `x`. -/
def c4S1 : DS.ASys :=
  { fields := [(("s", "x"), .vnum 1)]
  , getterCache := [(("s", "g"), .vnum 2)]
  , propToGetters := [(("s", "x"), [("s", "g")])]
  , getterToDeps := [(("s", "g"), [("s", "x")])]
  , activeGetters := [], updating := [], curCh := [], trace := [] }

/-- Actions for the nested-transaction scenario: `outer` writes `a`, calls
`inner`, then writes `b`; `inner` writes `c`. -/
def c5Env : DS.AEnv := fun n =>
  if n = "outer" then some (.sync [.setF "a" (.vnum 1), .callA "inner", .setF "b" (.vnum 2)])
  else if n = "inner" then some (.sync [.setF "c" (.vnum 3)]) else none

/-- Initial system for the `c5Env` store. -/
def c5S0 : DS.ASys :=
  { fields := [(("s", "a"), .vnum 0), (("s", "b"), .vnum 0), (("s", "c"), .vnum 0)]
  , getterCache := [], propToGetters := [], getterToDeps := [], activeGetters := []
  , updating := [], curCh := [], trace := [] }

/-- An asynchronous action that, before its await point, patches `b` and then
directly writes `c`. -/
def c6Env : DS.AEnv := fun n =>
  if n = "op" then some (.async [.patchC [("b", .vnum 2)], .setF "c" (.vnum 3)] []) else none

/-- Initial system for the `c6Env` store. -/
def c6S0 : DS.ASys :=
  { fields := [(("s", "b"), .vnum 0), (("s", "c"), .vnum 0)]
  , getterCache := [], propToGetters := [], getterToDeps := [], activeGetters := []
  , updating := [], curCh := [], trace := [] }

/-- The system at the suspension point of `op`: the wrapper has set
`isUpdating` and the pre-await commands have run. -/
def c6Mid : DS.ASys :=
  (execList (DS.execA c6Env "s" 5) [.patchC [("b", .vnum 2)], .setF "c" (.vnum 3)]
    { c6S0 with updating := aset c6S0.updating "s" true }).1

/-- Failing actions: `boom` writes `x` then throws synchronously; `arej`
writes `x` before its await point and then rejects; `pure` throws without
having committed any change. -/
def c7Env : DS.AEnv := fun n =>
  if n = "boom" then some (.sync [.setF "x" (.vnum 1), .throwE])
  else if n = "arej" then some (.async [.setF "x" (.vnum 1)] [.throwE])
  else if n = "pure" then some (.sync [.throwE]) else none

/-- A part_001 store with field `x = 0` and own property `$id`. -/
def c7B0 : FC.BSys :=
  { state := [("x", .vnum 0)], ownProps := ["$id"], ownVals := []
  , isUpdating := false, batchOld := [], batchCh := [], trace := [] }

/-- A defineStore.ts store with field `x = 0` for the failure scenarios. -/
def c7A0 : DS.ASys :=
  { fields := [(("s", "x"), .vnum 0)]
  , getterCache := [], propToGetters := [], getterToDeps := [], activeGetters := []
  , updating := [], curCh := [], trace := [] }

/-- A part_001 store whose own property `$id` carries the store id. -/
def c9B0 : FC.BSys :=
  { state := [("x", .vnum 0)], ownProps := ["$id"], ownVals := [("$id", .vstr "s")]
  , isUpdating := false, batchOld := [], batchCh := [], trace := [] }

/-- A part_001 store inside an open transaction, with one accumulated batch
key `w`. -/
def c5B1 : FC.BSys :=
  { state := [("x", .vnum 0)], ownProps := ["$id"], ownVals := []
  , isUpdating := true, batchOld := [("x", .vnum 0)]
  , batchCh := [("w", .vnum 3)], trace := [] }

/-- A reactive system for the cache-hit propagation witness: getter `a/g` is
cached with recorded dependency set `[a/x]`, and `b/h` is being computed
(it is the active stack's top). -/
def c8Sys : DS.ASys :=
  { fields := [(("a", "x"), .vnum 4)]
  , getterCache := [(("a", "g"), .vnum 8)]
  , propToGetters := [(("a", "x"), [("a", "g")])]
  , getterToDeps := [(("a", "g"), [("a", "x")])]
  , activeGetters := [("b", "h")]
  , updating := [], curCh := [], trace := [] }

/-!  Lemmas about the association-list and set primitives. -/

section AListLemmas

variable {α : Type} {β : Type} [DecidableEq α]

@[simp]
theorem look_aset (l : List (α × β)) (k : α) (v : β) (k' : α) :
    look (aset l k v) k' = if k' = k then some v else look l k' := by
  induction l with
  | nil =>
    by_cases h : k' = k
    · subst h; simp [aset, look]
    · simp [aset, look, h, show ¬k = k' from fun hh => h hh.symm]
  | cons p l ih =>
    by_cases hp : p.1 = k
    · subst hp
      by_cases h : k' = p.1
      · subst h; simp [aset, look]
      · simp [aset, look, h, show ¬p.1 = k' from fun hh => h hh.symm]
    · by_cases h : k' = p.1
      · subst h
        simp [aset, look, hp]
      · simp [aset, look, hp, ih, h, show ¬p.1 = k' from fun hh => h hh.symm]

@[simp]
theorem look_aerase (l : List (α × β)) (k k' : α) :
    look (aerase l k) k' = if k' = k then none else look l k' := by
  induction l with
  | nil => simp [aerase, look]
  | cons p l ih =>
    by_cases hp : p.1 = k
    · subst hp
      by_cases h : k' = p.1
      · subst h; simpa [aerase, look] using ih
      · simpa [aerase, look, h, show ¬p.1 = k' from fun hh => h hh.symm] using ih
    · by_cases h : k' = p.1
      · subst h
        simp [aerase, look, hp]
      · simpa [aerase, look, hp, h, show ¬p.1 = k' from fun hh => h hh.symm] using ih

@[simp]
theorem mem_insertU (l : List α) (a b : α) :
    b ∈ insertU l a ↔ b ∈ l ∨ b = a := by
  by_cases h : a ∈ l
  · simp only [insertU, if_pos h]
    constructor
    · exact Or.inl
    · rintro (hb | rfl)
      · exact hb
      · exact h
  · simp [insertU, h]

theorem mem_foldl_insertU (xs : List α) (init : List α) (g : α)
    (h : g ∈ init ∨ g ∈ xs) : g ∈ xs.foldl insertU init := by
  induction xs generalizing init with
  | nil => simpa using h.resolve_right (by simp)
  | cons x xs ih =>
    refine ih (insertU init x) ?_
    rcases h with h | h
    · exact Or.inl (by simp [h])
    · rcases List.mem_cons.mp h with h | h
      · exact Or.inl (by simp [h])
      · exact Or.inr h

theorem look_foldl_aerase (gs : List α) (c : List (α × β)) (g : α) :
    look (gs.foldl (fun acc x => aerase acc x) c) g
      = if g ∈ gs then none else look c g := by
  induction gs generalizing c with
  | nil => simp
  | cons x gs ih =>
    by_cases hg : g = x
    · subst hg
      simp only [List.foldl_cons, ih, look_aerase]
      simp
    · by_cases hmem : g ∈ gs <;> simp [ih, hmem, hg]

theorem aerase_aerase (l : List (α × β)) (k : α) :
    aerase (aerase l k) k = aerase l k := by
  simp [aerase, List.filter_filter]

end AListLemmas

/-!  Component-preservation lemmas for the defineStore.ts model. -/

namespace DS

@[simp] theorem recordChange_getterCache (sid k v s) :
    (recordChange sid k v s).getterCache = s.getterCache := rfl
@[simp] theorem recordChange_propToGetters (sid k v s) :
    (recordChange sid k v s).propToGetters = s.propToGetters := rfl
@[simp] theorem recordChange_getterToDeps (sid k v s) :
    (recordChange sid k v s).getterToDeps = s.getterToDeps := rfl
@[simp] theorem recordChange_fields (sid k v s) :
    (recordChange sid k v s).fields = s.fields := rfl
@[simp] theorem recordChange_updating (sid k v s) :
    (recordChange sid k v s).updating = s.updating := rfl
@[simp] theorem recordChange_trace (sid k v s) :
    (recordChange sid k v s).trace = s.trace := rfl

@[simp] theorem invalidateGetters_propToGetters (pk s) :
    (invalidateGetters pk s).propToGetters = s.propToGetters := rfl
@[simp] theorem invalidateGetters_getterToDeps (pk s) :
    (invalidateGetters pk s).getterToDeps = s.getterToDeps := rfl
@[simp] theorem invalidateGetters_fields (pk s) :
    (invalidateGetters pk s).fields = s.fields := rfl
@[simp] theorem invalidateGetters_updating (pk s) :
    (invalidateGetters pk s).updating = s.updating := rfl
@[simp] theorem invalidateGetters_curCh (pk s) :
    (invalidateGetters pk s).curCh = s.curCh := rfl
@[simp] theorem invalidateGetters_trace (pk s) :
    (invalidateGetters pk s).trace = s.trace := rfl

@[simp] theorem emitChanges_getterCache (sid s) :
    (emitChanges sid s).getterCache = s.getterCache := by
  dsimp only [emitChanges]; split <;> rfl
@[simp] theorem emitChanges_propToGetters (sid s) :
    (emitChanges sid s).propToGetters = s.propToGetters := by
  dsimp only [emitChanges]; split <;> rfl
@[simp] theorem emitChanges_getterToDeps (sid s) :
    (emitChanges sid s).getterToDeps = s.getterToDeps := by
  dsimp only [emitChanges]; split <;> rfl
@[simp] theorem emitChanges_fields (sid s) :
    (emitChanges sid s).fields = s.fields := by
  dsimp only [emitChanges]; split <;> rfl
@[simp] theorem emitChanges_updating (sid s) :
    (emitChanges sid s).updating = s.updating := by
  dsimp only [emitChanges]; split <;> rfl
@[simp] theorem emitChanges_activeGetters (sid s) :
    (emitChanges sid s).activeGetters = s.activeGetters := by
  dsimp only [emitChanges]; split <;> rfl

/-- The cache after the set trap's invalidation loop, pointwise. -/
theorem storeSet_cache (pk : SKey) (v : Value) (s : ASys) (g : SKey)
    (hmem : (look s.fields pk).isSome) (hch : look s.fields pk ≠ some v) :
    look (storeSet pk v s).2.getterCache g
      = if g ∈ dependentsOf s pk then none else look s.getterCache g := by
  obtain ⟨prev, hprev⟩ := Option.isSome_iff_exists.mp hmem
  have hne : ¬ prev = v := fun h => hch (by rw [hprev, h])
  simp only [storeSet, hprev, if_neg hne]
  split <;>
    simp [invalidateGetters, dependentsOf, look_foldl_aerase]

/-- The set trap never touches the dependency maps. -/
theorem storeSet_graph (pk : SKey) (v : Value) (s : ASys) :
    (storeSet pk v s).2.propToGetters = s.propToGetters
    ∧ (storeSet pk v s).2.getterToDeps = s.getterToDeps := by
  unfold storeSet
  cases hl : look s.fields pk with
  | none => exact ⟨rfl, rfl⟩
  | some prev =>
    by_cases he : prev = v
    · simp [he]
    · simp only [if_neg he]
      constructor <;> split <;> simp

/-- The field→getter index after `recordRead`, explicitly. -/
theorem recordRead_propToGetters (pk : SKey) (s : ASys) :
    (recordRead pk s).propToGetters
      = if s.activeGetters.isEmpty then s.propToGetters
        else aset s.propToGetters pk (s.activeGetters.foldl insertU (dependentsOf s pk)) := by
  unfold recordRead
  split
  · rfl
  · dsimp only
    split <;> rfl

/-- `recordRead` registers every getter on the active stack as a dependent of
the read field. -/
theorem recordRead_dependents (pk : SKey) (s : ASys) (g : SKey)
    (hg : g ∈ s.activeGetters) : g ∈ dependentsOf (recordRead pk s) pk := by
  have hne : s.activeGetters.isEmpty = false := by
    cases h : s.activeGetters with
    | nil => rw [h] at hg; cases hg
    | cons a l => rfl
  unfold dependentsOf
  rw [recordRead_propToGetters, hne]
  simp only [Bool.false_eq_true, if_false, look_aset, if_pos rfl, Option.getD_some]
  exact mem_foldl_insertU _ _ _ (Or.inr hg)

end DS

/-!  Claim C1. -/

/-- Claim C1: an effective write of a state field through the store's set trap
evicts exactly the cache entries recorded (in the process-wide
`globalPropertyToGetters` index, which spans containers) as dependents of that
field, and performs no recomputation or re-tracking (both dependency maps are
untouched); dependency recording adds every getter on the active evaluation
stack — including enclosing getters of other containers — as a dependent of
the field being read, so transitive cross-container dependents are recorded
and hence evicted. -/
theorem C1_write_invalidation_exact (s : DS.ASys) (pk : DS.SKey) (v : Value)
    (hmem : (look s.fields pk).isSome) (hch : look s.fields pk ≠ some v) :
    (∀ g : DS.SKey, look (DS.storeSet pk v s).2.getterCache g
        = if g ∈ DS.dependentsOf s pk then none else look s.getterCache g)
    ∧ (DS.storeSet pk v s).2.propToGetters = s.propToGetters
    ∧ (DS.storeSet pk v s).2.getterToDeps = s.getterToDeps
    ∧ ∀ g ∈ s.activeGetters, g ∈ DS.dependentsOf (DS.recordRead pk s) pk :=
  ⟨fun g => DS.storeSet_cache pk v s g hmem hch,
   (DS.storeSet_graph pk v s).1, (DS.storeSet_graph pk v s).2,
   fun g hg => DS.recordRead_dependents pk s g hg⟩

/-- Witness for C1 at a concrete system: the hypotheses hold and the
cross-container dependent `b/h` is evicted while the independent `a/u`
survives. -/
theorem C1_write_invalidation_exact_witness :
    ((look c1Sys.fields ("a", "x")).isSome
      ∧ look c1Sys.fields ("a", "x") ≠ some (.vnum 1))
    ∧ look (DS.storeSet ("a", "x") (.vnum 1) c1Sys).2.getterCache ("b", "h")
        = (if ("b", "h") ∈ DS.dependentsOf c1Sys ("a", "x") then none
           else look c1Sys.getterCache ("b", "h"))
    ∧ look (DS.storeSet ("a", "x") (.vnum 1) c1Sys).2.getterCache ("a", "u")
        = (if ("a", "u") ∈ DS.dependentsOf c1Sys ("a", "x") then none
           else look c1Sys.getterCache ("a", "u")) :=
  ⟨⟨by decide, by decide⟩,
   (C1_write_invalidation_exact c1Sys ("a", "x") (.vnum 1) (by decide) (by decide)).1 ("b", "h"),
   (C1_write_invalidation_exact c1Sys ("a", "x") (.vnum 1) (by decide) (by decide)).1 ("a", "u")⟩

/-!  Claim C10. -/

/-- Claim C10: listeners are held in a `Set`, so subscribing an
already-subscribed listener leaves the subscriber collection unchanged and
each distinct listener is invoked exactly once per notification; the
unsubscribe handle removes exactly that listener, does not disturb others,
and is idempotent (and raises no error — it is total). -/
theorem C10_subscribe_set_semantics :
    (∀ (l : List Nat) (f : Nat), f ∈ l → subAdd l f = l)
    ∧ (∀ (l : List Nat) (f : Nat), l.Nodup → (subAdd l f).Nodup)
    ∧ (∀ (l : List Nat) (f : Nat), l.Nodup → (notifyRun (subAdd l f)).count f = 1)
    ∧ (∀ (l : List Nat) (f g : Nat), g ≠ f → (g ∈ subRemove l f ↔ g ∈ l))
    ∧ (∀ (l : List Nat) (f : Nat), f ∉ subRemove l f)
    ∧ (∀ (l : List Nat) (f : Nat), subRemove (subRemove l f) f = subRemove l f) := by
  refine ⟨?_, ?_, ?_, ?_, ?_, ?_⟩
  · intro l f h; simp [subAdd, insertU, h]
  · intro l f h
    by_cases hf : f ∈ l
    · simpa [subAdd, insertU, hf] using h
    · simp [subAdd, insertU, hf, List.nodup_append, h]
  · intro l f h
    by_cases hf : f ∈ l
    · simp only [notifyRun, subAdd, insertU, if_pos hf]
      exact List.count_eq_one_of_mem h hf
    · simp [notifyRun, subAdd, insertU, hf, List.count_eq_zero_of_not_mem]
  · intro l f g h; simp [subRemove, h]
  · intro l f; simp [subRemove]
  · intro l f; simp [subRemove, List.filter_filter]

/-- Witness for C10 at concrete listeners. -/
theorem C10_subscribe_set_semantics_witness :
    ((3 : Nat) ∈ [3, 5] ∧ subAdd [3, 5] 3 = [3, 5])
    ∧ ([3, 5].Nodup ∧ (notifyRun (subAdd [3, 5] 3)).count 3 = 1)
    ∧ ((5 : Nat) ≠ 3 ∧ (5 ∈ subRemove [3, 5] 3 ↔ 5 ∈ [3, 5]))
    ∧ subRemove (subRemove [3, 5] 3) 3 = subRemove [3, 5] 3 :=
  ⟨⟨by decide, C10_subscribe_set_semantics.1 [3, 5] 3 (by decide)⟩,
   ⟨by decide, C10_subscribe_set_semantics.2.2.1 [3, 5] 3 (by decide)⟩,
   ⟨by decide, C10_subscribe_set_semantics.2.2.2.1 [3, 5] 3 5 (by decide)⟩,
   C10_subscribe_set_semantics.2.2.2.2.2 [3, 5] 3⟩

/-!  Claim C2. -/

/-- Claim C2 counterexample: in the defineStore.ts variant, assigning the very
same object reference back to field `x` (whose cached getter `g` is a
recorded dependent) is not treated as a change: the set trap leaves the
getter cache intact and emits no notification, while the claim requires
every non-primitive write to trigger invalidation and notification
regardless of reference equality. -/
theorem C2_counterexample :
    look c2S1.fields ("s", "x") = some (.vobj 0)
    ∧ ("s", "g") ∈ DS.dependentsOf c2S1 ("s", "x")
    ∧ look c2S1.getterCache ("s", "g") = some (.vobj 0)
    ∧ (DS.storeSet ("s", "x") (.vobj 0) c2S1).1 = true
    ∧ (DS.storeSet ("s", "x") (.vobj 0) c2S1).2.getterCache = c2S1.getterCache
    ∧ (DS.storeSet ("s", "x") (.vobj 0) c2S1).2.trace = [] := by decide

/-- Claim C2 (amended): the "non-primitives always count as changed" policy
holds only in the part_001 variant, where `applyChanges` and the set trap
treat any non-null object value as an effective change even when the
reference is unchanged, and primitives compare by strict equality.  In the
defineStore.ts variant the set trap compares purely by strict equality, so
writing back the same value — object reference or primitive — is not a
change: no cache eviction, no notification, no change record. -/
theorem C2_amended_change_policy :
    (∀ (s : DS.ASys) (pk : DS.SKey) (v : Value), look s.fields pk = some v →
        (DS.storeSet pk v s).1 = true
        ∧ (DS.storeSet pk v s).2.getterCache = s.getterCache
        ∧ (DS.storeSet pk v s).2.trace = s.trace
        ∧ (DS.storeSet pk v s).2.curCh = s.curCh)
    ∧ (∀ (st : List (String × Value)) (k : String) (r : Nat),
        look st k = some (.vobj r) →
        (FC.applyChanges st [(k, .vobj r)]).2.1 = true
        ∧ look (FC.applyChanges st [(k, .vobj r)]).2.2 k = some (.vobj r))
    ∧ (∀ (s : FC.BSys) (k : String) (r : Nat),
        s.isUpdating = false → k ∉ s.ownProps → look s.state k = some (.vobj r) →
        (FC.setFC k (.vobj r) s).1.trace
          = s.trace ++ [.notify s.state [(k, .vobj r)]])
    ∧ (∀ (s : FC.BSys) (k : String) (v : Value),
        k ∉ s.ownProps → look s.state k = some v → isObjNonNull v = false →
        FC.setFC k v s = (s, true)) := by
  refine ⟨?_, ?_, ?_, ?_⟩
  · intro s pk v h
    simp [DS.storeSet, h]
  · intro st k r h
    simp [FC.applyChanges, FC.applyStep, h, isObjNonNull]
  · intro s k r hupd hown h
    simp [FC.setFC, hown, h, isObjNonNull, hupd, FC.notifyFC]
  · intro s k v hown h hobj
    simp [FC.setFC, hown, h, hobj]

/-- Witness for the amended C2 at concrete inputs. -/
theorem C2_amended_change_policy_witness :
    (look c2S1.fields ("s", "x") = some (.vobj 0)
      ∧ (DS.storeSet ("s", "x") (.vobj 0) c2S1).2.getterCache = c2S1.getterCache)
    ∧ (look [("y", Value.vobj 3)] "y" = some (.vobj 3)
      ∧ (FC.applyChanges [("y", .vobj 3)] [("y", .vobj 3)]).2.1 = true) :=
  ⟨⟨by decide, (C2_amended_change_policy.1 c2S1 ("s", "x") (.vobj 0) (by decide)).2.1⟩,
   ⟨by decide, (C2_amended_change_policy.2.1 [("y", .vobj 3)] "y" 3 (by decide)).1⟩⟩

/-!  Claim C3. -/

/-- Claim C3 counterexample: getter `g` initially reads `sw` and `f1`; after
`sw` flips and `g` is recomputed (`c3S3`), the current computation path reads
`sw` and `f2` only — the derived→field map has indeed dropped `f1` — yet `g`
lingers in the field→derived index of the stale field `f1`, and a later
write to `f1` still evicts `g`'s cache entry, contradicting the claim that a
stale field is no longer an edge in either direction and no longer evicts
this derived value's cache entry. -/
theorem C3_counterexample :
    look c3S3.getterCache ("s", "g") = some (.vnum 2)
    ∧ ("s", "f1") ∉ DS.depsOf c3S3 ("s", "g")
    ∧ ("s", "g") ∈ DS.dependentsOf c3S3 ("s", "f1")
    ∧ look (DS.storeSet ("s", "f1") (.vnum 7) c3S3).2.getterCache ("s", "g") = none := by
  decide

/-- Claim C3 (amended): on recomputation the derived value's own recorded
dependency set (`globalGetterToDependencies`, the derived→field direction)
is replaced, not merged: the entry is deleted before re-tracking, so a
cache-miss read gives the same result whether or not a stale entry was
present.  The field→derived index (`globalPropertyToGetters`) is however not
pruned, so a field of a previous computation path keeps the derived value
among its recorded dependents and a later write to it still evicts the cache
entry (the counterexample exhibits this). -/
theorem C3_amended_deps_replaced (env : DS.GEnv) (f : Nat) (k : DS.SKey)
    (s : DS.ASys) (h : look s.getterCache k = none) :
    DS.evalE env (f + 1) (.readGetter k) s
      = DS.evalE env (f + 1) (.readGetter k)
          { s with getterToDeps := aerase s.getterToDeps k } := by
  simp only [DS.evalE]
  rw [show ({ s with getterToDeps := aerase s.getterToDeps k } : DS.ASys).getterCache
        = s.getterCache from rfl, h]
  cases env k with
  | none => rfl
  | some body => simp [aerase_aerase]

/-- Witness for the amended C3: evaluating the uncached getter from `c3S0`
coincides with evaluating it after its (empty) stale dependency entry is
erased. -/
theorem C3_amended_deps_replaced_witness :
    look c3S0.getterCache ("s", "g") = none
    ∧ DS.evalE c3Env (8 + 1) (.readGetter ("s", "g")) c3S0
        = DS.evalE c3Env (8 + 1) (.readGetter ("s", "g"))
            { c3S0 with getterToDeps := aerase c3S0.getterToDeps ("s", "g") } :=
  ⟨by decide, C3_amended_deps_replaced c3Env 8 ("s", "g") c3S0 (by decide)⟩

/-!  Claim C4. -/

namespace DS

/-- The `currentChanges`-recording loop of `$patch` never touches the getter
cache. -/
theorem foldl_recordOld_getterCache (sid : String) (ps : List (String × Value))
    (s : ASys) :
    (ps.foldl (fun t kv =>
        recordChange sid kv.1 ((look t.fields (sid, kv.1)).getD .undef) t) s).getterCache
      = s.getterCache := by
  induction ps generalizing s with
  | nil => rfl
  | cons kv ps ih => rw [List.foldl_cons, ih]; rfl

/-- The `Object.assign` loop of `$patch` never touches the getter cache. -/
theorem foldl_assignField_getterCache (sid : String) (ps : List (String × Value))
    (s : ASys) :
    (ps.foldl (fun t kv => { t with fields := aset t.fields (sid, kv.1) kv.2 }) s).getterCache
      = s.getterCache := by
  induction ps generalizing s with
  | nil => rfl
  | cons kv ps ih => rw [List.foldl_cons, ih]

/-- `$patch` performs no derived-value cache invalidation at all. -/
theorem patchA_getterCache (sid : String) (ps : List (String × Value)) (s : ASys) :
    (patchA sid ps s).getterCache = s.getterCache := by
  unfold patchA
  rw [emitChanges_getterCache]
  show (ps.foldl _ (ps.foldl _ s)).getterCache = s.getterCache
  rw [foldl_assignField_getterCache, foldl_recordOld_getterCache]

/-- A one-field `$patch` whose supplied value equals the current value still
notifies, with the no-op key in the delta. -/
theorem patchA_equal_notifies (sid : String) (k : String) (v : Value) (s : ASys)
    (h : look s.fields (sid, k) = some v) (h2 : curOf s sid = []) :
    (patchA sid [(k, v)] s).trace = s.trace ++ [.notify sid [(k, v)]] := by
  unfold curOf at h2
  simp [patchA, recordChange, emitChanges, curOf, aset, h, h2]

end DS

namespace FC

/-- A supplied entry that equals the current (primitive) value is skipped by
the `applyChanges` loop. -/
theorem applyStep_skip (acc : List (String × Value) × Bool × List (String × Value))
    (kv : String × Value) (h : (look acc.1 kv.1).getD .undef = kv.2)
    (hprim : isObjNonNull kv.2 = false) : applyStep acc kv = acc := by
  unfold applyStep
  rw [if_pos ⟨h, hprim⟩]

/-- A patch all of whose entries equal the current primitive values is a
complete no-op. -/
theorem applyChanges_skip (st ps : List (String × Value))
    (h : ∀ kv ∈ ps, look st kv.1 = some kv.2 ∧ isObjNonNull kv.2 = false) :
    applyChanges st ps = (st, false, []) := by
  induction ps with
  | nil => rfl
  | cons kv ps ih =>
    have h1 := h kv (List.mem_cons_self kv ps)
    have hstep : applyStep (st, false, []) kv = (st, false, []) :=
      applyStep_skip _ _ (by rw [h1.1]; rfl) h1.2
    unfold applyChanges at ih ⊢
    rw [List.foldl_cons, hstep, ih]
    intro kv' hkv'
    exact h kv' (List.mem_cons_of_mem kv hkv')

/-- The state produced by `$patch` is the one computed by `applyChanges`. -/
theorem patchFC_state (ps : List (String × Value)) (s : BSys) :
    (patchFC ps s).state = (applyChanges s.state ps).1 := by
  unfold patchFC
  dsimp only
  split
  · rfl
  · split
    · rfl
    · rfl

/-- Reading a key back after the `applyChanges` fold yields the last supplied
value (skipped entries equal the current value, so the read still agrees). -/
theorem foldl_applyStep_look (ps : List (String × Value))
    (acc : List (String × Value) × Bool × List (String × Value)) (k : String) :
    (look (ps.foldl applyStep acc).1 k).getD .undef
      = match lastVal ps k with
        | some v => v
        | none => (look acc.1 k).getD .undef := by
  induction ps generalizing acc with
  | nil => rfl
  | cons kv ps ih =>
    rw [List.foldl_cons, ih]
    cases hl : lastVal ps k with
    | some v => simp [lastVal, hl]
    | none =>
      simp only [lastVal, hl]
      by_cases hk : kv.1 = k
      · rw [if_pos hk]
        unfold applyStep
        dsimp only
        split
        · next hcond => rw [← hk]; exact hcond.1
        · simp [hk]
      · rw [if_neg hk]
        unfold applyStep
        dsimp only
        split
        · rfl
        · simp [show ¬ k = kv.1 from fun hh => hk hh.symm]

/-- Number of notifications in a concatenated trace. -/
theorem countNotifyB_append (tr tr' : List BEvent) :
    countNotifyB (tr ++ tr') = countNotifyB tr + countNotifyB tr' := by
  simp [countNotifyB, List.filter_append]

/-- A `$patch` emits at most one notification. -/
theorem patchFC_notify_le (ps : List (String × Value)) (s : BSys) :
    countNotifyB (patchFC ps s).trace ≤ countNotifyB s.trace + 1 := by
  unfold patchFC
  dsimp only
  split
  · exact Nat.le_succ_of_le (Nat.le_refl _)
  · split
    · exact Nat.le_succ_of_le (Nat.le_refl _)
    · simp [notifyFC, countNotifyB_append, countNotifyB]

end FC

/-- Claim C4 counterexample: in defineStore.ts, a `$patch` supplying only a
field whose value equals the current value (`x = 1`) still notifies (with the
no-op key in the delta), although the claim says such fields contribute
nothing and a no-effective-change patch notifies no listener; and a `$patch`
that really changes `x` performs no invalidation pass — the cache entry of
the recorded dependent getter `g` survives. -/
theorem C4_counterexample :
    ("s", "g") ∈ DS.dependentsOf c4S1 ("s", "x")
    ∧ (DS.patchA "s" [("x", .vnum 1)] c4S1).trace = [.notify "s" [("x", .vnum 1)]]
    ∧ (DS.patchA "s" [("x", .vnum 5)] c4S1).getterCache = c4S1.getterCache := by
  decide

/-- Claim C4 (amended): in the part_001 variant the batched patch computes the
net change against the prior state — a patch all of whose entries equal the
current primitive values is a complete no-op (no state change, no
notification) — applies all supplied fields atomically (each key reads back
as its last supplied value) and emits at most one notification per call.  In
the defineStore.ts variant, `$patch` performs no derived-value cache
invalidation at all, records every supplied key in the delta at its
pre-patch value regardless of equality, and notifies whenever any key is
supplied — even with no effective change. -/
theorem C4_amended_patch_transaction :
    (∀ (sid : String) (ps : List (String × Value)) (s : DS.ASys),
        (DS.patchA sid ps s).getterCache = s.getterCache)
    ∧ (∀ (sid : String) (k : String) (v : Value) (s : DS.ASys),
        look s.fields (sid, k) = some v → DS.curOf s sid = [] →
        (DS.patchA sid [(k, v)] s).trace = s.trace ++ [.notify sid [(k, v)]])
    ∧ (∀ (ps : List (String × Value)) (s : FC.BSys),
        (∀ kv ∈ ps, look s.state kv.1 = some kv.2 ∧ isObjNonNull kv.2 = false) →
        FC.patchFC ps s = s)
    ∧ (∀ (ps : List (String × Value)) (s : FC.BSys),
        FC.countNotifyB (FC.patchFC ps s).trace ≤ FC.countNotifyB s.trace + 1)
    ∧ (∀ (ps : List (String × Value)) (s : FC.BSys) (k : String) (v : Value),
        lastVal ps k = some v →
        (look (FC.patchFC ps s).state k).getD .undef = v) := by
  refine ⟨DS.patchA_getterCache, DS.patchA_equal_notifies, ?_, FC.patchFC_notify_le, ?_⟩
  · intro ps s h
    unfold FC.patchFC
    rw [FC.applyChanges_skip s.state ps h]
    rfl
  · intro ps s k v h
    rw [FC.patchFC_state]
    unfold FC.applyChanges
    rw [FC.foldl_applyStep_look, h]

/-- Witness for the amended C4 at concrete inputs. -/
theorem C4_amended_patch_transaction_witness :
    (look c4S1.fields ("s", "x") = some (.vnum 1) ∧ DS.curOf c4S1 "s" = []
      ∧ (DS.patchA "s" [("x", .vnum 1)] c4S1).trace
          = c4S1.trace ++ [.notify "s" [("x", .vnum 1)]])
    ∧ (lastVal [("x", .vnum 9)] "x" = some (.vnum 9)
      ∧ (look (FC.patchFC [("x", .vnum 9)] c7B0).state "x").getD .undef = .vnum 9) :=
  ⟨⟨by decide, by decide,
    C4_amended_patch_transaction.2.1 "s" "x" (.vnum 1) c4S1 (by decide) (by decide)⟩,
   ⟨by decide,
    C4_amended_patch_transaction.2.2.2.2 [("x", .vnum 9)] c7B0 "x" (.vnum 9) (by decide)⟩⟩

/-!  Claim C8. -/

namespace DS

@[simp] theorem propagateDep_getterCache (outer t d) :
    (propagateDep outer t d).getterCache = t.getterCache := rfl
@[simp] theorem propagateDep_fields (outer t d) :
    (propagateDep outer t d).fields = t.fields := rfl
@[simp] theorem propagateDep_activeGetters (outer t d) :
    (propagateDep outer t d).activeGetters = t.activeGetters := rfl

theorem foldl_propagateDep_getterCache (outer : SKey) (ds : List SKey) (s : ASys) :
    (ds.foldl (propagateDep outer) s).getterCache = s.getterCache := by
  induction ds generalizing s with
  | nil => rfl
  | cons d ds ih => rw [List.foldl_cons, ih, propagateDep_getterCache]

theorem foldl_propagateDep_fields (outer : SKey) (ds : List SKey) (s : ASys) :
    (ds.foldl (propagateDep outer) s).fields = s.fields := by
  induction ds generalizing s with
  | nil => rfl
  | cons d ds ih => rw [List.foldl_cons, ih, propagateDep_fields]

/-- A propagation step only ever grows a field's dependent set. -/
theorem propagateDep_mono_dependents (outer : SKey) (t : ASys) (d x g : SKey)
    (h : g ∈ dependentsOf t x) : g ∈ dependentsOf (propagateDep outer t d) x := by
  unfold propagateDep dependentsOf
  dsimp only
  by_cases hx : x = d
  · subst hx
    rw [look_aset, if_pos rfl]
    simp only [Option.getD_some, mem_insertU]
    exact Or.inl h
  · rw [look_aset, if_neg hx]
    exact h

/-- A propagation step only ever grows the outer getter's dependency set. -/
theorem propagateDep_mono_deps (outer : SKey) (t : ASys) (d y : SKey)
    (h : y ∈ depsOf t outer) : y ∈ depsOf (propagateDep outer t d) outer := by
  unfold propagateDep depsOf
  dsimp only
  rw [look_aset, if_pos rfl]
  simp only [Option.getD_some, mem_insertU]
  exact Or.inl h

/-- After processing a dependency, the new edges are present. -/
theorem propagateDep_est (outer : SKey) (t : ASys) (d : SKey) :
    outer ∈ dependentsOf (propagateDep outer t d) d
    ∧ d ∈ depsOf (propagateDep outer t d) outer := by
  constructor
  · unfold propagateDep dependentsOf
    dsimp only
    rw [look_aset, if_pos rfl]
    simp only [Option.getD_some, mem_insertU]
    exact Or.inr trivial
  · unfold propagateDep depsOf
    dsimp only
    rw [look_aset, if_pos rfl]
    simp only [Option.getD_some, mem_insertU]
    exact Or.inr trivial

theorem foldl_propagateDep_pres_dependents (outer : SKey) (ds : List SKey)
    (s : ASys) (x g : SKey) (h : g ∈ dependentsOf s x) :
    g ∈ dependentsOf (ds.foldl (propagateDep outer) s) x := by
  induction ds generalizing s with
  | nil => exact h
  | cons d ds ih =>
    rw [List.foldl_cons]
    exact ih _ (propagateDep_mono_dependents outer s d x g h)

theorem foldl_propagateDep_pres_deps (outer : SKey) (ds : List SKey)
    (s : ASys) (y : SKey) (h : y ∈ depsOf s outer) :
    y ∈ depsOf (ds.foldl (propagateDep outer) s) outer := by
  induction ds generalizing s with
  | nil => exact h
  | cons d ds ih =>
    rw [List.foldl_cons]
    exact ih _ (propagateDep_mono_deps outer s d y h)

/-- Every processed dependency ends up recorded in both directions. -/
theorem foldl_propagateDep_mem (outer : SKey) (ds : List SKey) (s : ASys)
    (d : SKey) (hd : d ∈ ds) :
    d ∈ depsOf (ds.foldl (propagateDep outer) s) outer
    ∧ outer ∈ dependentsOf (ds.foldl (propagateDep outer) s) d := by
  induction ds generalizing s with
  | nil => cases hd
  | cons d0 ds ih =>
    rw [List.foldl_cons]
    rcases List.mem_cons.mp hd with h | h
    · subst h
      exact ⟨foldl_propagateDep_pres_deps outer ds _ d (propagateDep_est outer s d).2,
             foldl_propagateDep_pres_dependents outer ds _ d outer (propagateDep_est outer s d).1⟩
    · exact ih _ h

/-- `hitPropagate` under a non-empty stack with recorded dependencies: the
cache and the state are untouched, and every recorded dependency of the hit
getter becomes an edge of the outer getter in both directions. -/
theorem hitPropagate_spec (k : SKey) (s : ASys) (outer : SKey) (D : List SKey)
    (ha : s.activeGetters.getLast? = some outer)
    (hd : look s.getterToDeps k = some D) :
    (hitPropagate k s).getterCache = s.getterCache
    ∧ (hitPropagate k s).fields = s.fields
    ∧ ∀ d ∈ D, outer ∈ dependentsOf (hitPropagate k s) d
        ∧ d ∈ depsOf (hitPropagate k s) outer := by
  have hne : s.activeGetters.isEmpty = false := by
    cases h : s.activeGetters with
    | nil => rw [h] at ha; cases ha
    | cons a l => rfl
  unfold hitPropagate
  rw [hne, hd, ha]
  simp only [Bool.false_eq_true, if_false]
  exact ⟨foldl_propagateDep_getterCache outer D s, foldl_propagateDep_fields outer D s,
         fun d hdm => ⟨(foldl_propagateDep_mem outer D s d hdm).2,
                        (foldl_propagateDep_mem outer D s d hdm).1⟩⟩

end DS

/-- Claim C8: reading a cached getter during another getter's computation
returns the cached value without re-invoking its body — the result does not
consult the getter environment or the remaining fuel — while its previously
recorded field dependencies are propagated to the enclosing computation in
both directions of the graph, so that a later effective write to any of
those fields evicts the enclosing getter's cache entry. -/
theorem C8_cache_hit_propagation (env env2 : DS.GEnv) (f f2 : Nat)
    (k outer : DS.SKey) (v : Value) (D : List DS.SKey) (s : DS.ASys)
    (hc : look s.getterCache k = some v)
    (ha : s.activeGetters.getLast? = some outer)
    (hd : look s.getterToDeps k = some D) :
    DS.evalE env (f + 1) (.readGetter k) s = some (v, DS.hitPropagate k s)
    ∧ DS.evalE env2 (f2 + 1) (.readGetter k) s
        = DS.evalE env (f + 1) (.readGetter k) s
    ∧ (DS.hitPropagate k s).getterCache = s.getterCache
    ∧ (∀ d ∈ D, outer ∈ DS.dependentsOf (DS.hitPropagate k s) d
        ∧ d ∈ DS.depsOf (DS.hitPropagate k s) outer)
    ∧ ∀ d ∈ D, ∀ w : Value,
        (look (DS.hitPropagate k s).fields d).isSome →
        look (DS.hitPropagate k s).fields d ≠ some w →
        look (DS.storeSet d w (DS.hitPropagate k s)).2.getterCache outer = none := by
  obtain ⟨hcache, hfields, hmems⟩ := DS.hitPropagate_spec k s outer D ha hd
  have h1 : DS.evalE env (f + 1) (.readGetter k) s = some (v, DS.hitPropagate k s) := by
    simp [DS.evalE, hc]
  have h2 : DS.evalE env2 (f2 + 1) (.readGetter k) s = some (v, DS.hitPropagate k s) := by
    simp [DS.evalE, hc]
  refine ⟨h1, h2.trans h1.symm, hcache, hmems, ?_⟩
  intro d hdm w hsome hne
  rw [DS.storeSet_cache _ _ _ _ hsome hne, if_pos (hmems d hdm).1]

/-- Witness for C8 at the concrete system `c8Sys`. -/
theorem C8_cache_hit_propagation_witness :
    (look c8Sys.getterCache ("a", "g") = some (.vnum 8)
      ∧ c8Sys.activeGetters.getLast? = some ("b", "h")
      ∧ look c8Sys.getterToDeps ("a", "g") = some [("a", "x")])
    ∧ DS.evalE c2Env (0 + 1) (.readGetter ("a", "g")) c8Sys
        = some (.vnum 8, DS.hitPropagate ("a", "g") c8Sys) :=
  ⟨⟨by decide, by decide, by decide⟩,
   (C8_cache_hit_propagation c2Env c2Env 0 0 ("a", "g") ("b", "h") (.vnum 8)
      [("a", "x")] c8Sys (by decide) (by decide) (by decide)).1⟩

/-!  Claim C9. -/

/-- Claim C9 counterexample: in the part_001 variant the proxy accepts a write
to the store-own property `$id` — which is not a declared state field — and
mutates the store object: the trap returns `true`, produces no warning and
no notification (state itself is untouched), while the claim requires every
write to a non-state property to be rejected with a warning. -/
theorem C9_counterexample :
    (FC.setFC "$id" (.vstr "evil") c9B0).2 = true
    ∧ (FC.setFC "$id" (.vstr "evil") c9B0).1.trace = []
    ∧ look (FC.setFC "$id" (.vstr "evil") c9B0).1.ownVals "$id" = some (.vstr "evil")
    ∧ (FC.setFC "$id" (.vstr "evil") c9B0).1.state = c9B0.state := by decide

/-- Claim C9 (amended): in defineStore.ts every write to a property that is
not a declared state field is rejected — the trap returns `false` and the
only effect is a developer-facing warning (state, caches, dependency maps
and accumulated changes untouched, no notification).  In part_001 this holds
only for properties that are neither store-own nor state fields; a store-own
property (control surface or action) is writable and silently mutates the
store object, in support of hot module replacement. -/
theorem C9_amended_unknown_write (s : DS.ASys) (pk : DS.SKey) (v : Value)
    (h : look s.fields pk = none) :
    DS.storeSet pk v s
        = (false, { s with trace := s.trace ++ [.warnSet pk.1 pk.2] })
    ∧ (∀ (t : FC.BSys) (p : String) (w : Value),
        p ∉ t.ownProps → look t.state p = none →
        FC.setFC p w t = ({ t with trace := t.trace ++ [.warnSet p] }, false))
    ∧ (∀ (t : FC.BSys) (p : String) (w : Value), p ∈ t.ownProps →
        FC.setFC p w t = ({ t with ownVals := aset t.ownVals p w }, true)) := by
  refine ⟨?_, ?_, ?_⟩
  · simp [DS.storeSet, h]
  · intro t p w hown hst
    simp [FC.setFC, hown, hst]
  · intro t p w hown
    simp [FC.setFC, hown]

/-- Witness for the amended C9 at concrete inputs. -/
theorem C9_amended_unknown_write_witness :
    (look c7A0.fields ("s", "zz") = none
      ∧ DS.storeSet ("s", "zz") (.vnum 1) c7A0
          = (false, { c7A0 with trace := c7A0.trace ++ [.warnSet "s" "zz"] }))
    ∧ FC.setFC "zz" (.vnum 1) c9B0
        = ({ c9B0 with trace := c9B0.trace ++ [.warnSet "zz"] }, false) :=
  ⟨⟨by decide, (C9_amended_unknown_write c7A0 ("s", "zz") (.vnum 1) (by decide)).1⟩,
   (C9_amended_unknown_write c7A0 ("s", "zz") (.vnum 1) (by decide)).2.1
     c9B0 "zz" (.vnum 1) (by decide) (by decide)⟩

/-!  Transaction invariants of the part_001 action wrapper. -/

namespace FC

/-- What any step taken while a transaction is open must preserve: the lock
stays held, no notification is emitted, and accumulated batch keys
survive. -/
def TxInv (s s' : BSys) : Prop :=
  s'.isUpdating = true
  ∧ countNotifyB s'.trace = countNotifyB s.trace
  ∧ ∀ k : String, (look s.batchCh k).isSome → (look s'.batchCh k).isSome

theorem txInv_refl (s : BSys) (h : s.isUpdating = true) : TxInv s s :=
  ⟨h, rfl, fun _ hk => hk⟩

theorem txInv_trans {s1 s2 s3 : BSys} (h12 : TxInv s1 s2) (h23 : TxInv s2 s3) :
    TxInv s1 s3 :=
  ⟨h23.1, h23.2.1.trans h12.2.1, fun k hk => h23.2.2 k (h12.2.2 k hk)⟩

theorem look_aset_isSome {α β : Type} [DecidableEq α] (l : List (α × β))
    (k k' : α) (v : β) (h : (look l k').isSome) :
    (look (aset l k v) k').isSome := by
  rw [look_aset]
  split
  · rfl
  · exact h

theorem look_foldl_aset_isSome (ps : List (String × Value))
    (b : List (String × Value)) (k : String) (h : (look b k).isSome) :
    (look (ps.foldl (fun b kv => aset b kv.1 kv.2) b) k).isSome := by
  induction ps generalizing b with
  | nil => exact h
  | cons kv ps ih =>
    rw [List.foldl_cons]
    exact ih _ (look_aset_isSome b kv.1 k kv.2 h)

theorem setFC_txInv (p : String) (v : Value) (s : BSys)
    (h : s.isUpdating = true) : TxInv s ((setFC p v s).1) := by
  unfold setFC
  dsimp only
  by_cases h1 : p ∈ s.ownProps
  · rw [if_pos h1]
    exact ⟨h, rfl, fun _ hk => hk⟩
  · rw [if_neg h1]
    by_cases h2 : (look s.state p).isNone
    · rw [if_pos h2]
      exact ⟨h, by simp [countNotifyB_append, countNotifyB], fun _ hk => hk⟩
    · rw [if_neg h2]
      by_cases h3 : (look s.state p).getD Value.undef ≠ v ∨ isObjNonNull v = true
      · rw [if_pos h3, if_pos h]
        exact ⟨h, rfl, fun k hk => look_aset_isSome s.batchCh p k v hk⟩
      · rw [if_neg h3]
        exact ⟨h, rfl, fun _ hk => hk⟩

theorem patchFC_txInv (ps : List (String × Value)) (s : BSys)
    (h : s.isUpdating = true) : TxInv s (patchFC ps s) := by
  unfold patchFC
  dsimp only
  by_cases h1 : (applyChanges s.state ps).2.1 = false
  · rw [if_pos h1]
    exact ⟨h, rfl, fun _ hk => hk⟩
  · rw [if_neg h1, if_pos h]
    exact ⟨h, rfl, fun k hk => look_foldl_aset_isSome _ s.batchCh k hk⟩

theorem execList_txInv (step : DS.Cmd → BSys → BSys × Bool)
    (hstep : ∀ c s, s.isUpdating = true → TxInv s ((step c s).1)) :
    ∀ (cs : List DS.Cmd) (s : BSys), s.isUpdating = true →
      TxInv s ((execList step cs s).1) := by
  intro cs
  induction cs with
  | nil => exact fun s h => txInv_refl s h
  | cons c cs ih =>
    intro s h
    unfold execList
    dsimp only
    split
    · exact hstep c s h
    · exact txInv_trans (hstep c s h) (ih _ (hstep c s h).1)

theorem commitFC_true (s : BSys) : commitFC true s = s := by
  unfold commitFC
  rw [if_pos rfl]

theorem runBCore_txInv (env : DS.AEnv) (step : DS.Cmd → BSys → BSys × Bool)
    (hstep : ∀ c s, s.isUpdating = true → TxInv s ((step c s).1))
    (name : String) (s : BSys) (h : s.isUpdating = true) :
    TxInv s ((runBCore env step name s).1) := by
  have ho : openTx s = (s, true) := by unfold openTx; rw [if_pos h]
  unfold runBCore
  cases env name with
  | none => exact txInv_refl s h
  | some d =>
    cases d with
    | sync body =>
      dsimp only
      rw [ho]
      dsimp only
      have hr := execList_txInv step hstep body s h
      split
      · exact ⟨hr.1, hr.2.1, hr.2.2⟩
      · rw [commitFC_true]
        exact hr
    | async before after =>
      dsimp only
      rw [ho]
      dsimp only
      have hr1 := execList_txInv step hstep before s h
      split
      · exact ⟨hr1.1, hr1.2.1, hr1.2.2⟩
      · rw [commitFC_true]
        exact txInv_trans hr1 (execList_txInv step hstep after _ hr1.1)

theorem execFC_txInv (env : DS.AEnv) :
    ∀ (f : Nat) (c : DS.Cmd) (s : BSys), s.isUpdating = true →
      TxInv s ((execFC env f c s).1) := by
  intro f
  induction f with
  | zero =>
    intro c s h
    cases c with
    | setF p v => exact setFC_txInv p v s h
    | patchC ps => exact patchFC_txInv ps s h
    | callA n => exact txInv_refl s h
    | throwE => exact txInv_refl s h
  | succ f ih =>
    intro c s h
    cases c with
    | setF p v => exact setFC_txInv p v s h
    | patchC ps => exact patchFC_txInv ps s h
    | callA n => exact runBCore_txInv env (execFC env f) ih n s h
    | throwE => exact txInv_refl s h

theorem commitFC_le (prev : Bool) (s : BSys) :
    countNotifyB (commitFC prev s).trace ≤ countNotifyB s.trace + 1 := by
  unfold commitFC
  split
  · exact Nat.le_succ_of_le (Nat.le_refl _)
  · dsimp only
    split
    · exact Nat.le_succ_of_le (Nat.le_refl _)
    · simp [notifyFC, countNotifyB_append, countNotifyB]

theorem commitFC_isUpdating (s : BSys) : (commitFC false s).isUpdating = false := by
  unfold commitFC
  rw [if_neg (by simp)]
  dsimp only
  split
  · rfl
  · rfl

/-- An outermost wrapper call emits at most one notification. -/
theorem runBCore_outer_le (env : DS.AEnv) (step : DS.Cmd → BSys → BSys × Bool)
    (hstep : ∀ c s, s.isUpdating = true → TxInv s ((step c s).1))
    (name : String) (s : BSys) (h : s.isUpdating = false) :
    countNotifyB ((runBCore env step name s).1).trace ≤ countNotifyB s.trace + 1 := by
  have ho : openTx s
      = ({ s with isUpdating := true, batchOld := s.state, batchCh := [] }, false) := by
    unfold openTx; rw [if_neg (by simp [h])]
  unfold runBCore
  cases env name with
  | none => exact Nat.le_succ_of_le (Nat.le_refl _)
  | some d =>
    cases d with
    | sync body =>
      dsimp only
      rw [ho]
      dsimp only
      have hr := execList_txInv step hstep body
        { s with isUpdating := true, batchOld := s.state, batchCh := [] } rfl
      split
      · exact Nat.le_succ_of_le (Nat.le_of_eq hr.2.1)
      · exact (commitFC_le false _).trans (by rw [hr.2.1])
    | async before after =>
      dsimp only
      rw [ho]
      dsimp only
      have hr1 := execList_txInv step hstep before
        { s with isUpdating := true, batchOld := s.state, batchCh := [] } rfl
      split
      · exact Nat.le_succ_of_le (Nat.le_of_eq hr1.2.1)
      · have hr2 := execList_txInv step hstep after _ hr1.1
        exact (commitFC_le false _).trans (by rw [hr2.2.1, hr1.2.1])

/-- An outermost wrapper call always releases the update lock, also when the
body throws. -/
theorem runBCore_release (env : DS.AEnv) (step : DS.Cmd → BSys → BSys × Bool)
    (name : String) (s : BSys) (h : s.isUpdating = false) :
    ((runBCore env step name s).1).isUpdating = false := by
  have ho : openTx s
      = ({ s with isUpdating := true, batchOld := s.state, batchCh := [] }, false) := by
    unfold openTx; rw [if_neg (by simp [h])]
  unfold runBCore
  cases env name with
  | none => exact h
  | some d =>
    cases d with
    | sync body =>
      dsimp only
      rw [ho]
      dsimp only
      split
      · rfl
      · exact commitFC_isUpdating _
    | async before after =>
      dsimp only
      rw [ho]
      dsimp only
      split
      · rfl
      · exact commitFC_isUpdating _

end FC

/-!  Lemmas about the defineStore.ts action wrapper. -/

namespace DS

theorem countNotifyA_append (tr tr' : List AEvent) :
    countNotifyA (tr ++ tr') = countNotifyA tr + countNotifyA tr' := by
  simp [countNotifyA, List.filter_append]

/-- The set trap never changes the `isUpdating` flags. -/
theorem storeSet_updating (pk : SKey) (v : Value) (s : ASys) :
    (storeSet pk v s).2.updating = s.updating := by
  unfold storeSet
  cases look s.fields pk with
  | none => rfl
  | some prev =>
    dsimp only
    split
    · rfl
    · split
      · rfl
      · exact emitChanges_updating _ _

/-- The set trap emits no notification while the store is batch-updating. -/
theorem storeSet_trace_updating (pk : SKey) (v : Value) (s : ASys)
    (h : updOf s pk.1 = true) :
    countNotifyA (storeSet pk v s).2.trace = countNotifyA s.trace := by
  unfold storeSet
  cases look s.fields pk with
  | none => simp [countNotifyA_append, countNotifyA]
  | some prev =>
    dsimp only
    split
    · rfl
    · rw [if_pos (show updOf (recordChange pk.1 pk.2 prev
        (invalidateGetters pk { s with fields := aset s.fields pk v })) pk.1 = true from h)]
      rfl

/-- The invariant preserved by simple commands run inside an open batch
update of the defineStore.ts wrapper. -/
def AInv (sid : String) (s s' : ASys) : Prop :=
  updOf s' sid = true ∧ countNotifyA s'.trace = countNotifyA s.trace

theorem aInv_refl (sid : String) (s : ASys) (h : updOf s sid = true) :
    AInv sid s s := ⟨h, rfl⟩

theorem aInv_trans {sid : String} {s1 s2 s3 : ASys} (h12 : AInv sid s1 s2)
    (h23 : AInv sid s2 s3) : AInv sid s1 s3 :=
  ⟨h23.1, h23.2.trans h12.2⟩

theorem execA_simple_inv (env : AEnv) (sid : String) (f : Nat) (c : Cmd)
    (s : ASys) (hc : SimpleCmd c = true) (h : updOf s sid = true) :
    AInv sid s ((execA env sid f c s).1) := by
  cases c with
  | setF p v =>
    have h1 : updOf (storeSet (sid, p) v s).2 sid = true := by
      unfold updOf
      rw [storeSet_updating]
      exact h
    have h2 := storeSet_trace_updating (sid, p) v s h
    cases f with
    | zero => exact ⟨h1, h2⟩
    | succ f => exact ⟨h1, h2⟩
  | patchC ps => simp [SimpleCmd] at hc
  | callA n => simp [SimpleCmd] at hc
  | throwE =>
    cases f with
    | zero => exact aInv_refl sid s h
    | succ f => exact aInv_refl sid s h

theorem execList_simple_inv (env : AEnv) (sid : String) (f : Nat)
    (cs : List Cmd) (hcs : ∀ c ∈ cs, SimpleCmd c = true) (s : ASys)
    (h : updOf s sid = true) :
    AInv sid s ((execList (execA env sid f) cs s).1) := by
  induction cs generalizing s with
  | nil => exact aInv_refl sid s h
  | cons c cs ih =>
    unfold execList
    dsimp only
    have hstep := execA_simple_inv env sid f c s (hcs c (List.mem_cons_self c cs)) h
    split
    · exact hstep
    · exact aInv_trans hstep
        (ih (fun c' hc' => hcs c' (List.mem_cons_of_mem c hc')) _ hstep.1)

/-- The wrapper's `notify` emits at most one notification. -/
theorem notifyA_le (sid : String) (s : ASys) :
    countNotifyA (notifyA sid s).trace ≤ countNotifyA s.trace + 1 := by
  unfold notifyA emitChanges
  dsimp only
  split
  · exact Nat.le_succ_of_le (Nat.le_refl _)
  · simp [countNotifyA_append, countNotifyA]

/-- The wrapper's `notify` resets the store's `isUpdating` flag. -/
theorem updOf_notifyA (sid : String) (s : ASys) :
    updOf (notifyA sid s) sid = false := by
  unfold updOf notifyA
  rw [emitChanges_updating]
  simp

/-- `notifySubscribers`+clear leaves an empty `currentChanges`. -/
theorem curOf_emitChanges (sid : String) (s : ASys) :
    curOf (emitChanges sid s) sid = [] := by
  unfold curOf emitChanges
  dsimp only
  simp

/-- A synchronous action always releases the update flag and clears the
change accumulator, also when its body throws. -/
theorem runActionA_sync_release (env : AEnv) (sid : String) (f : Nat)
    (name : String) (body : List Cmd) (s : ASys)
    (h : env name = some (.sync body)) :
    updOf (runActionA env sid f name s).1 sid = false
    ∧ curOf (runActionA env sid f name s).1 sid = [] := by
  unfold runActionA runACore
  rw [h]
  dsimp only
  exact ⟨updOf_notifyA sid _, curOf_emitChanges sid _⟩

/-- The store's flag right after the wrapper sets it. -/
theorem updOf_open (sid : String) (s : ASys) :
    updOf { s with updating := aset s.updating sid true } sid = true := by
  unfold updOf
  simp

end DS

/-!  Claim C5. -/

/-- Claim C5 counterexample: in defineStore.ts, the action wrapper keeps no
record of a previously open transaction, so when `outer` calls `inner`, the
inner call's completion fires a notification of all changes accumulated so
far (`a` and `c`), clears the delta and releases the lock — the outer
action's subsequent write of `b` then notifies separately.  A notification
is emitted while the outer transaction is open, and the run produces two
notifications instead of the single outermost one. -/
theorem C5_counterexample :
    (DS.runActionA c5Env "s" 5 "outer" c5S0).1.trace
      = [.notify "s" [("a", .vnum 0), ("c", .vnum 0)], .notify "s" [("b", .vnum 0)]]
    ∧ DS.countNotifyA (DS.runActionA c5Env "s" 5 "outer" c5S0).1.trace ≠ 1 := by
  decide

/-- Claim C5 (amended): the nested-transaction invariant holds for the
part_001 wrapper: an action invoked while a transaction is open joins it —
its completion emits no notification, leaves the lock held and never drops
accumulated delta keys — and an outermost invocation emits at most one
notification.  In the defineStore.ts wrapper an inner synchronous action's
completion instead fires the notification, clears the delta and releases
the lock (the counterexample exhibits this). -/
theorem C5_amended_nested_transactions (env : DS.AEnv) (f : Nat) (name : String)
    (s : FC.BSys) :
    (s.isUpdating = true →
        (FC.runActionFC env f name s).1.isUpdating = true
        ∧ FC.countNotifyB (FC.runActionFC env f name s).1.trace
            = FC.countNotifyB s.trace
        ∧ ∀ k : String, (look s.batchCh k).isSome →
            (look (FC.runActionFC env f name s).1.batchCh k).isSome)
    ∧ (s.isUpdating = false →
        FC.countNotifyB (FC.runActionFC env f name s).1.trace
          ≤ FC.countNotifyB s.trace + 1) := by
  constructor
  · intro h
    exact FC.runBCore_txInv env (FC.execFC env f) (FC.execFC_txInv env f) name s h
  · intro h
    exact FC.runBCore_outer_le env (FC.execFC env f) (FC.execFC_txInv env f) name s h

/-- Witness for the amended C5: an action called inside an open transaction
with an already-accumulated key `w`. -/
theorem C5_amended_nested_transactions_witness :
    c5B1.isUpdating = true
    ∧ (FC.runActionFC c7Env 5 "boom" c5B1).1.isUpdating = true
    ∧ FC.countNotifyB (FC.runActionFC c7Env 5 "boom" c5B1).1.trace
        = FC.countNotifyB c5B1.trace
    ∧ ((look c5B1.batchCh "w").isSome →
        (look (FC.runActionFC c7Env 5 "boom" c5B1).1.batchCh "w").isSome) :=
  ⟨by decide,
   ((C5_amended_nested_transactions c7Env 5 "boom" c5B1).1 (by decide)).1,
   ((C5_amended_nested_transactions c7Env 5 "boom" c5B1).1 (by decide)).2.1,
   fun hw => ((C5_amended_nested_transactions c7Env 5 "boom" c5B1).1 (by decide)).2.2 "w" hw⟩

/-!  Claim C6. -/

/-- Claim C6 counterexample: in defineStore.ts, an asynchronous action whose
pre-await segment patches `b` and then directly writes `c` has already fired
two notifications by its suspension point — the `$patch` one (allowed by the
claim's exception) and, because `$patch` reset the update flag, a second one
for the direct, non-patch write of `c`, which the claim forbids before
settlement.  The transaction lock is already released at the suspension
point instead of remaining open, and settlement adds no notification. -/
theorem C6_counterexample :
    c6Mid.trace = [.notify "s" [("b", .vnum 0)], .notify "s" [("c", .vnum 0)]]
    ∧ DS.updOf c6Mid "s" = false
    ∧ (DS.runActionA c6Env "s" 5 "op" c6S0).1.trace = c6Mid.trace := by decide

/-- Claim C6 (amended): for the part_001 wrapper the claim holds for every
asynchronous operation: the pre-await segment runs with the lock held and
emits no notification, and the whole call emits at most one notification, at
settlement.  For the defineStore.ts wrapper the same holds provided the
operation performs no `$patch` and no nested action call before settlement;
a `$patch` notifies immediately and releases the update flag, after which
even direct writes of the same synchronous segment notify before settlement
(the counterexample). -/
theorem C6_amended_async_settlement (env : DS.AEnv) (f : Nat) (name : String)
    (before after : List DS.Cmd) :
    (∀ s : FC.BSys, env name = some (.async before after) → s.isUpdating = false →
        FC.countNotifyB (execList (FC.execFC env f) before
            { s with isUpdating := true, batchOld := s.state, batchCh := [] }).1.trace
          = FC.countNotifyB s.trace
        ∧ (execList (FC.execFC env f) before
            { s with isUpdating := true, batchOld := s.state, batchCh := [] }).1.isUpdating
            = true
        ∧ FC.countNotifyB (FC.runActionFC env f name s).1.trace
            ≤ FC.countNotifyB s.trace + 1)
    ∧ ∀ (sid : String) (s : DS.ASys),
        (∀ c ∈ before, DS.SimpleCmd c = true) →
        (∀ c ∈ after, DS.SimpleCmd c = true) →
        DS.countNotifyA (execList (DS.execA env sid f) before
            { s with updating := aset s.updating sid true }).1.trace
          = DS.countNotifyA s.trace
        ∧ DS.updOf (execList (DS.execA env sid f) before
            { s with updating := aset s.updating sid true }).1 sid = true
        ∧ (env name = some (.async before after) →
            DS.countNotifyA (DS.runActionA env sid f name s).1.trace
              ≤ DS.countNotifyA s.trace + 1) := by
  constructor
  · intro s henv h
    have hr := FC.execList_txInv (FC.execFC env f) (FC.execFC_txInv env f) before
      { s with isUpdating := true, batchOld := s.state, batchCh := [] } rfl
    exact ⟨hr.2.1, hr.1,
      FC.runBCore_outer_le env (FC.execFC env f) (FC.execFC_txInv env f) name s h⟩
  · intro sid s hb ha
    have hr := DS.execList_simple_inv env sid f before hb
      { s with updating := aset s.updating sid true } (DS.updOf_open sid s)
    have key : ∀ t : DS.ASys, DS.countNotifyA t.trace = DS.countNotifyA s.trace →
        DS.countNotifyA (DS.notifyA sid t).trace ≤ DS.countNotifyA s.trace + 1 :=
      fun t ht => ht ▸ DS.notifyA_le sid t
    refine ⟨hr.2, hr.1, ?_⟩
    intro henv
    unfold DS.runActionA DS.runACore
    rw [henv]
    dsimp only
    split
    · exact key _ hr.2
    · have hr2 := DS.execList_simple_inv env sid f after ha _ hr.1
      exact key _ (hr2.2.trans hr.2)

/-- Witness for the amended C6: the asynchronous action `arej` of `c7Env`
(a direct write before the await, a throw after it) on both variants. -/
theorem C6_amended_async_settlement_witness :
    (c7Env "arej" = some (.async [.setF "x" (.vnum 1)] [.throwE])
      ∧ c7B0.isUpdating = false
      ∧ FC.countNotifyB (FC.runActionFC c7Env 5 "arej" c7B0).1.trace
          ≤ FC.countNotifyB c7B0.trace + 1)
    ∧ ((∀ c ∈ [DS.Cmd.setF "x" (.vnum 1)], DS.SimpleCmd c = true)
      ∧ (∀ c ∈ [DS.Cmd.throwE], DS.SimpleCmd c = true)
      ∧ DS.countNotifyA (execList (DS.execA c7Env "s" 5) [DS.Cmd.setF "x" (.vnum 1)]
            { c7A0 with updating := aset c7A0.updating "s" true }).1.trace
          = DS.countNotifyA c7A0.trace) :=
  ⟨⟨by decide, by decide,
    ((C6_amended_async_settlement c7Env 5 "arej" [DS.Cmd.setF "x" (.vnum 1)]
        [DS.Cmd.throwE]).1 c7B0 (by decide) (by decide)).2.2⟩,
   ⟨by decide, by decide,
    ((C6_amended_async_settlement c7Env 5 "arej" [DS.Cmd.setF "x" (.vnum 1)]
        [DS.Cmd.throwE]).2 "s" c7A0 (by decide) (by decide)).1⟩⟩

/-!  Claim C7. -/

/-- Claim C7 counterexample: in part_001, action `boom` writes `x` (the change
is applied to state) and then throws: the failure propagates and the lock is
released, but the committed change is never flushed to subscribers — no
notification is emitted — contradicting the claim that changes already
committed before the failure are still flushed and notified. -/
theorem C7_counterexample :
    (FC.runActionFC c7Env 5 "boom" c7B0).2 = true
    ∧ look (FC.runActionFC c7Env 5 "boom" c7B0).1.state "x" = some (.vnum 1)
    ∧ (FC.runActionFC c7Env 5 "boom" c7B0).1.isUpdating = false
    ∧ (FC.runActionFC c7Env 5 "boom" c7B0).1.trace = [] := by decide

/-- Claim C7 (amended): a failing operation propagates its failure and
releases the update lock in both variants; changes committed before the
failure are flushed and notified by the defineStore.ts wrapper (its
`finally` block notifies even on a synchronous throw) and by the part_001
wrapper on an asynchronous rejection (commit runs in `.finally`), but a
synchronous throw in the part_001 wrapper leaves the already-applied state
changes unnotified; an operation that fails having committed no change
produces no notification in either variant. -/
theorem C7_amended_failure_handling :
    (∀ (env : DS.AEnv) (sid : String) (f : Nat) (name : String)
        (body : List DS.Cmd) (s : DS.ASys), env name = some (.sync body) →
        DS.updOf (DS.runActionA env sid f name s).1 sid = false
        ∧ DS.curOf (DS.runActionA env sid f name s).1 sid = [])
    ∧ (∀ (env : DS.AEnv) (f : Nat) (name : String) (s : FC.BSys),
        s.isUpdating = false →
        (FC.runActionFC env f name s).1.isUpdating = false)
    ∧ ((DS.runActionA c7Env "s" 5 "boom" c7A0).2 = true
        ∧ (DS.runActionA c7Env "s" 5 "boom" c7A0).1.trace
            = [.notify "s" [("x", .vnum 0)]]
        ∧ look (DS.runActionA c7Env "s" 5 "boom" c7A0).1.fields ("s", "x")
            = some (.vnum 1))
    ∧ ((FC.runActionFC c7Env 5 "arej" c7B0).2 = true
        ∧ (FC.runActionFC c7Env 5 "arej" c7B0).1.trace
            = [.notify [("x", .vnum 0)] [("x", .vnum 1)]])
    ∧ ((DS.runActionA c7Env "s" 5 "pure" c7A0).2 = true
        ∧ (DS.runActionA c7Env "s" 5 "pure" c7A0).1.trace = []
        ∧ (FC.runActionFC c7Env 5 "pure" c7B0).2 = true
        ∧ (FC.runActionFC c7Env 5 "pure" c7B0).1.trace = []) := by
  refine ⟨?_, ?_, by decide, by decide, by decide⟩
  · intro env sid f name body s h
    exact DS.runActionA_sync_release env sid f name body s h
  · intro env f name s h
    exact FC.runBCore_release env (FC.execFC env f) name s h

/-- Witness for the amended C7's general conjuncts at concrete inputs. -/
theorem C7_amended_failure_handling_witness :
    (c7Env "boom" = some (.sync [.setF "x" (.vnum 1), .throwE])
      ∧ DS.updOf (DS.runActionA c7Env "s" 5 "boom" c7A0).1 "s" = false
      ∧ DS.curOf (DS.runActionA c7Env "s" 5 "boom" c7A0).1 "s" = [])
    ∧ (c7B0.isUpdating = false
      ∧ (FC.runActionFC c7Env 5 "boom" c7B0).1.isUpdating = false) :=
  ⟨⟨by decide,
    (C7_amended_failure_handling.1 c7Env "s" 5 "boom"
      [DS.Cmd.setF "x" (.vnum 1), DS.Cmd.throwE] c7A0 (by decide)).1,
    (C7_amended_failure_handling.1 c7Env "s" 5 "boom"
      [DS.Cmd.setF "x" (.vnum 1), DS.Cmd.throwE] c7A0 (by decide)).2⟩,
   ⟨by decide, C7_amended_failure_handling.2.1 c7Env 5 "boom" c7B0 (by decide)⟩⟩
